import Mathlib

/-!
Verification model of the ga4-mcp-skedaddle repository.

The repository is a small HTTP gateway exposing two Google Analytics 4
queries through an MCP-style JSON-RPC dispatcher.  The authoritative
sources modelled here are

  * src/api/mcp.ts        -- the request normalizer / dispatcher (function
                             normalize, toAction, and the default handler;
                             only its POST path is modelled, which is the
                             path every claim concerns),
  * src/src/mcpServer.ts  -- the tool registry draft keyed
                             ga4.run_report / ga4.realtime
                             (zRunReport, zRealtime, the two tool
                             definitions, listTools, callTool),
  * src/unnamed/part_002  -- a second draft of api/mcp.ts that adds an
                             explicit notifications/initialized branch.

JSON values are embedded as an inductive type; JavaScript numbers that
occur in the code are integers, so Json.num carries an Int.  Remote GA4
calls are a parameter (an oracle from requests to responses), and every
function records the list of remote requests it issued, so that a theorem
can state that the remote collaborator observed no invocation.
-/

/-- JSON values.  Objects are ordered association lists, mirroring the key
order produced by the JavaScript object literals in the source. -/
inductive Json where
  | null : Json
  | bool (b : Bool) : Json
  | num (n : Int) : Json
  | str (s : String) : Json
  | arr (xs : List Json) : Json
  | obj (fields : List (String × Json)) : Json
  deriving Repr

/-- Property access o[k]: the first binding of key k, none when the value
is not an object or the key is absent (JavaScript gives undefined). -/
def Json.lookup : Json → String → Option Json
  | .obj fields, k => lookupFields fields k
  | _, _ => none
where
  lookupFields : List (String × Json) → String → Option Json
  | [], _ => none
  | (k2, v) :: rest, k => if k2 = k then some v else lookupFields rest k

/-- Whether an object value carries the given key. -/
def hasKey (j : Json) (k : String) : Bool :=
  (j.lookup k).isSome

/-- JavaScript truthiness of a JSON value: null, false, 0 and the empty
string are falsy; arrays and objects are always truthy. -/
def jsTruthy : Json → Bool
  | .null => false
  | .bool b => b
  | .num n => !(n == 0)
  | .str s => !(s == "")
  | .arr _ => true
  | .obj _ => true

/-- A value is nullish (null or undefined); undefined is the none case. -/
def jsNullish : Option Json → Bool
  | none => true
  | some .null => true
  | some _ => false

/-- The ?? operator: the left operand unless it is nullish. -/
def jsCoalesce (a b : Option Json) : Option Json :=
  if jsNullish a then b else a

/-- The || operator specialised to optional strings, as used on
environment variables: an absent or empty string falls through. -/
def jsOrStr : Option String → Option String → Option String
  | some s, b => if s = "" then b else some s
  | none, b => b

mutual

/-- String() and template-literal coercion of a JSON value.  Primitives
follow JavaScript exactly; for arrays and plain objects the JavaScript
default toString is mirrored (comma join, respectively the constant
object tag). -/
def jsToString : Json → String
  | .null => "null"
  | .bool true => "true"
  | .bool false => "false"
  | .num n => toString n
  | .str s => s
  | .arr xs => String.intercalate "," (jsToStringList xs)
  | .obj _ => "[object Object]"

/-- Coercion of the elements of an array, used by jsToString. -/
def jsToStringList : List Json → List String
  | [] => []
  | x :: xs => jsToString x :: jsToStringList xs

end

/-- ASCII lower-casing of one character, the effect toLowerCase has on
the method names occurring in the protocol. -/
def lowerChar (c : Char) : Char :=
  if 'A' ≤ c ∧ c ≤ 'Z' then Char.ofNat (c.toNat + 32) else c

/-- trim(): drop leading and trailing whitespace. -/
def jsTrim (s : String) : String :=
  String.mk ((s.data.dropWhile Char.isWhitespace).reverse.dropWhile Char.isWhitespace).reverse

/-- replace(whitespace, empty), applied globally: drop every whitespace
character. -/
def stripWhitespaceChars (cs : List Char) : List Char :=
  cs.filter (fun c => !c.isWhitespace)

/-- PRIVATE_KEY.replace of the two-character escape backslash-n by a real
newline, applied globally. -/
def unescapeNewlines (s : String) : String :=
  String.mk (go s.data)
where
  go : List Char → List Char
  | [] => []
  | '\\' :: 'n' :: rest => '\n' :: go rest
  | c :: rest => c :: go rest

/-- Error taxonomy.  The source throws plain Error values; the constructor
records the class the specification assigns to each throw site
(ValidationError, NotFoundError, ConfigError) and the message carries the
Error message.  Zod validation messages are abstracted to the name of the
offending field; every other message is the literal from the source. -/
inductive Err where
  | validation (msg : String)
  | notFound (msg : String)
  | config (msg : String)
  deriving Repr

/-- The e.message read by the dispatcher when an error is caught. -/
def Err.message : Err → String
  | .validation m => m
  | .notFound m => m
  | .config m => m

/-- Process environment, restricted to the variables the source reads.
GOOGLE_CLOUD_CREDENTIALS is modelled as the already parsed service
account document (the JSON.parse step of the source is elided; a
malformed document is outside the model). -/
structure Env where
  googleCloudCredentials : Option Json := none
  clientEmail : Option String := none
  privateKey : Option String := none
  gcpProjectId : Option String := none
  ga4PropertyId : Option String := none

/-- Credential pair handed to the BetaAnalyticsDataClient constructor. -/
structure Ga4Credentials where
  client_email : Option String
  private_key : Option String
  deriving Repr

/-- The connection descriptor behind the analytics client handle. -/
structure Ga4Client where
  projectId : Option String
  credentials : Ga4Credentials
  deriving Repr

/-- String-valued property of the parsed credential document. -/
def lookupStr (j : Json) (k : String) : Option String :=
  match j.lookup k with
  | some (.str s) => some s
  | _ => none

/-- makeGa4Client of src/src/mcpServer.ts: prefer the full credential
document, else the email and key pair with newline unescaping, else fail
with the configuration error. -/
def makeGa4Client (env : Env) : Except Err Ga4Client :=
  match env.googleCloudCredentials with
  | some creds =>
      .ok { projectId := jsOrStr env.gcpProjectId (lookupStr creds "project_id"),
            credentials := { client_email := lookupStr creds "client_email",
                             private_key := lookupStr creds "private_key" } }
  | none =>
      match env.clientEmail, env.privateKey with
      | some em, some pk =>
          if em = "" ∨ pk = "" then
            .error (.config "GA4 credentials not configured (set GOOGLE_CLOUD_CREDENTIALS or CLIENT_EMAIL/PRIVATE_KEY).")
          else
            .ok { projectId := env.gcpProjectId,
                  credentials := { client_email := some em,
                                   private_key := some (unescapeNewlines pk) } }
      | _, _ =>
          .error (.config "GA4 credentials not configured (set GOOGLE_CLOUD_CREDENTIALS or CLIENT_EMAIL/PRIVATE_KEY).")

/-- getGa4PropertyPath of src/src/mcpServer.ts. -/
def getGa4PropertyPath (env : Env) : Except Err String :=
  match env.ga4PropertyId with
  | some id => if id = "" then .error (.config "Missing GA4_PROPERTY_ID") else .ok ("properties/" ++ id)
  | none => .error (.config "Missing GA4_PROPERTY_ID")

/-- One GA4 date range, as validated by the zod schema. -/
structure DateRange where
  startDate : String
  endDate : String
  deriving Repr, DecidableEq

/-- A name record, the { name } wrapper the executors build around each
dimension or metric string. -/
structure NameRec where
  name : String
  deriving Repr, DecidableEq

/-- One orderBys entry built when orderByMetric is set. -/
structure OrderBy where
  metricName : String
  desc : Bool
  deriving Repr, DecidableEq

/-- The runReport request sent to the remote analytics collaborator,
with the exact fields the executor assembles (numeric paging parameters
already stringified). -/
structure ReportRequest where
  property : String
  dateRanges : List DateRange
  dimensions : List NameRec
  metrics : List NameRec
  limit : String
  offset : String
  returnPropertyQuota : Bool
  orderBys : Option (List OrderBy)
  dimensionFilter : Option Json
  deriving Repr

/-- The runRealtimeReport request sent to the remote collaborator. -/
structure RealtimeRequest where
  property : String
  dimensions : List NameRec
  metrics : List NameRec
  limit : String
  deriving Repr

/-- A remote invocation observed by the analytics collaborator. -/
inductive RemoteReq where
  | report (r : ReportRequest)
  | realtime (r : RealtimeRequest)
  deriving Repr

/-- One row of a remote response; both value lists may be absent. -/
structure GaRow where
  dimensionValues : Option (List String) := none
  metricValues : Option (List String) := none
  deriving Repr

/-- A remote response, restricted to the fields the shaping code reads.
rowCount is the server total-matching count, distinct from the number of
rows returned. -/
structure GaResponse where
  dimensionHeaders : Option (List String) := none
  metricHeaders : Option (List String) := none
  rows : Option (List GaRow) := none
  rowCount : Option Int := none
  propertyQuota : Option Json := none
  deriving Repr

/-- Validated arguments of ga4.run_report (zod schema zRunReport of
src/src/mcpServer.ts, defaults applied). -/
structure RunReportArgs where
  dateRanges : List DateRange
  dimensions : List String
  metrics : List String
  limit : Int
  offset : Int
  orderByMetric : Option String
  orderDescending : Bool
  filterExpression : Option Json
  includeQuota : Bool
  deriving Repr

/-- Validated arguments of ga4.realtime (zod schema zRealtime). -/
structure RealtimeArgs where
  dimensions : List String
  metrics : List String
  limit : Int
  deriving Repr

/-- z.string element check. -/
def asString : Json → Option String
  | .str s => some s
  | _ => none

/-- z.array(z.string()). -/
def parseStringList : Json → Option (List String)
  | .arr xs => xs.mapM asString
  | _ => none

/-- z.object({ startDate: z.string(), endDate: z.string() }); unknown
keys are stripped. -/
def parseDateRange : Json → Option DateRange
  | j@(.obj _) =>
      match j.lookup "startDate", j.lookup "endDate" with
      | some (.str s), some (.str e) => some ⟨s, e⟩
      | _, _ => none
  | _ => none

/-- z.array of date ranges. -/
def parseDateRanges : Json → Option (List DateRange)
  | .arr xs => xs.mapM parseDateRange
  | _ => none

/-- z.number().int().min(1).max(10000); JSON numbers are integral in the
model, so the int refinement is carried by the type. -/
def parseLimit : Json → Option Int
  | .num n => if 1 ≤ n ∧ n ≤ 10000 then some n else none
  | _ => none

/-- z.number().int().min(0). -/
def parseOffset : Json → Option Int
  | .num n => if 0 ≤ n then some n else none
  | _ => none

/-- z.boolean(). -/
def parseBoolean : Json → Option Bool
  | .bool b => some b
  | _ => none

/-- A field with a .default: an absent key yields the default, a present
value must satisfy the field check; the error message records the field
name (the precise ZodError text is abstracted). -/
def fieldWithDefault (o : Json) (k : String) (dflt : α) (p : Json → Option α) : Except String α :=
  match o.lookup k with
  | none => .ok dflt
  | some v => match p v with
    | some a => .ok a
    | none => .error k

/-- A field with .optional(): an absent key yields none, a present value
must satisfy the check (an explicit null fails unless the check takes
it). -/
def fieldOptional (o : Json) (k : String) (p : Json → Option α) : Except String (Option α) :=
  match o.lookup k with
  | none => .ok none
  | some v => match p v with
    | some a => .ok (some a)
    | none => .error k

/-- zRunReport.parse before error classification: field-by-field
validation with defaults, rejecting a non-object input. -/
def zRunReportCore (input : Json) : Except String RunReportArgs :=
  match input with
  | .obj _ => do
      let dateRanges ← fieldWithDefault input "dateRanges" [⟨"7daysAgo", "today"⟩] parseDateRanges
      let dimensions ← fieldWithDefault input "dimensions" ["pagePath"] parseStringList
      let metrics ← fieldWithDefault input "metrics" ["activeUsers"] parseStringList
      let limit ← fieldWithDefault input "limit" (100 : Int) parseLimit
      let offset ← fieldWithDefault input "offset" (0 : Int) parseOffset
      let orderByMetric ← fieldOptional input "orderByMetric" asString
      let orderDescending ← fieldWithDefault input "orderDescending" true parseBoolean
      let filterExpression ← fieldOptional input "filterExpression" some
      let includeQuota ← fieldWithDefault input "includeQuota" true parseBoolean
      return { dateRanges, dimensions, metrics, limit, offset,
               orderByMetric, orderDescending, filterExpression, includeQuota }
  | _ => .error "expected object"

/-- zRunReport.parse; a throw is a ValidationError. -/
def zRunReportParse (input : Json) : Except Err RunReportArgs :=
  (zRunReportCore input).mapError Err.validation

/-- zRealtime.parse before error classification (defaults country,
activeUsers, limit 100 as in the draft the registry uses). -/
def zRealtimeCore (input : Json) : Except String RealtimeArgs :=
  match input with
  | .obj _ => do
      let dimensions ← fieldWithDefault input "dimensions" ["country"] parseStringList
      let metrics ← fieldWithDefault input "metrics" ["activeUsers"] parseStringList
      let limit ← fieldWithDefault input "limit" (100 : Int) parseLimit
      return { dimensions, metrics, limit }
  | _ => .error "expected object"

/-- zRealtime.parse; a throw is a ValidationError. -/
def zRealtimeParse (input : Json) : Except Err RealtimeArgs :=
  (zRealtimeCore input).mapError Err.validation

/-- Presence handling of each zRunReport field, transcribed from the zod
chains: true when the chain carries .default, false for the two
.optional() fields. -/
def zRunReportFieldHasDefault : List (String × Bool) :=
  [("dateRanges", true), ("dimensions", true), ("metrics", true),
   ("limit", true), ("offset", true), ("orderByMetric", false),
   ("orderDescending", true), ("filterExpression", false), ("includeQuota", true)]

/-- Presence handling of each zRealtime field: every field has a
default. -/
def zRealtimeFieldHasDefault : List (String × Bool) :=
  [("dimensions", true), ("metrics", true), ("limit", true)]

/-- The zRunReport fields marked .optional() rather than .default. -/
def zRunReportOptionalFields : List String :=
  ["orderByMetric", "filterExpression"]

/-- Field names carrying no default in a validator. -/
def fieldsWithoutDefault (l : List (String × Bool)) : List String :=
  (l.filter (fun p => !p.2)).map (fun p => p.1)

/-- The JSON Schema published for ga4.run_report, transcribed from
src/src/mcpServer.ts. -/
def runReportInputSchema : Json :=
  .obj [
    ("type", .str "object"),
    ("properties", .obj [
      ("dateRanges", .obj [
        ("type", .str "array"),
        ("items", .obj [
          ("type", .str "object"),
          ("properties", .obj [
            ("startDate", .obj [("type", .str "string")]),
            ("endDate", .obj [("type", .str "string")])]),
          ("required", .arr [.str "startDate", .str "endDate"])]),
        ("description", .str "GA4 date ranges; supports 'YYYY-MM-DD' and relative values like '7daysAgo'/'today'.")]),
      ("dimensions", .obj [("type", .str "array"), ("items", .obj [("type", .str "string")])]),
      ("metrics", .obj [("type", .str "array"), ("items", .obj [("type", .str "string")])]),
      ("limit", .obj [("type", .str "integer"), ("minimum", .num 1), ("maximum", .num 10000)]),
      ("offset", .obj [("type", .str "integer"), ("minimum", .num 0)]),
      ("orderByMetric", .obj [("type", .str "string")]),
      ("orderDescending", .obj [("type", .str "boolean")]),
      ("filterExpression", .obj [("type", .arr [.str "object", .str "string", .str "null"])]),
      ("includeQuota", .obj [("type", .str "boolean")])]),
    ("required", .arr [.str "dimensions", .str "metrics", .str "dateRanges"])]

/-- The JSON Schema published for ga4.realtime, transcribed from
src/src/mcpServer.ts. -/
def realtimeInputSchema : Json :=
  .obj [
    ("type", .str "object"),
    ("properties", .obj [
      ("dimensions", .obj [("type", .str "array"), ("items", .obj [("type", .str "string")])]),
      ("metrics", .obj [("type", .str "array"), ("items", .obj [("type", .str "string")])]),
      ("limit", .obj [("type", .str "integer"), ("minimum", .num 1), ("maximum", .num 10000)])]),
    ("required", .arr [.str "dimensions", .str "metrics"])]

/-- The required list of a published schema, read back from the JSON
document (empty when absent or ill-typed). -/
def requiredOf (schema : Json) : List String :=
  match schema.lookup "required" with
  | some (.arr xs) => (xs.mapM asString).getD []
  | _ => []

/-- Header kind tag. -/
inductive HeaderKind where
  | dimension
  | metric
  deriving Repr, DecidableEq

/-- One shaped header, { type, name }. -/
structure Header where
  type : HeaderKind
  name : String
  deriving Repr, DecidableEq

/-- The shared header shaping: dimension headers in response order, then
metric headers in response order, each tagged with its kind. -/
def shapedHeaders (resp : GaResponse) : List Header :=
  ((resp.dimensionHeaders.getD []).map (fun n => Header.mk .dimension n)) ++
  ((resp.metricHeaders.getD []).map (fun n => Header.mk .metric n))

/-- The shared row shaping: per returned row, dimension values then
metric values. -/
def shapedRows (resp : GaResponse) : List (List String) :=
  (resp.rows.getD []).map (fun r => (r.dimensionValues.getD []) ++ (r.metricValues.getD []))

/-- sampled: resp.rowCount is present and the returned rows are fewer
than the server total. -/
def sampledFlag (resp : GaResponse) : Bool :=
  match resp.rowCount with
  | none => false
  | some total => ((shapedRows resp).length : Int) < total

/-- JSON form of one shaped header. -/
def headerJson (h : Header) : Json :=
  .obj [("type", .str (match h.type with | .dimension => "dimension" | .metric => "metric")),
        ("name", .str h.name)]

/-- JSON form of one shaped row. -/
def rowJson (row : List String) : Json :=
  .arr (row.map Json.str)

/-- The ga4.run_report tool result: a text content line plus the
structured content with headers, rows, rowCount, sampled and quota. -/
def reportResultJson (resp : GaResponse) : Json :=
  let rows := shapedRows resp
  .obj [
    ("content", .arr [.obj [("type", .str "text"),
                            ("text", .str ("Returned " ++ toString rows.length ++ " rows."))]]),
    ("structuredContent", .obj [
      ("headers", .arr ((shapedHeaders resp).map headerJson)),
      ("rows", .arr (rows.map rowJson)),
      ("rowCount", .num rows.length),
      ("sampled", .bool (sampledFlag resp)),
      ("quota", resp.propertyQuota.getD .null)])]

/-- The ga4.realtime tool result: structured content only, without
sampled or quota. -/
def realtimeResultJson (resp : GaResponse) : Json :=
  let rows := shapedRows resp
  .obj [
    ("structuredContent", .obj [
      ("headers", .arr ((shapedHeaders resp).map headerJson)),
      ("rows", .arr (rows.map rowJson)),
      ("rowCount", .num rows.length)])]

/-- The remote request the ga4.run_report executor assembles from its
validated arguments: date ranges echoed, names wrapped, paging
parameters stringified, a single order directive when orderByMetric is
truthy, the filter attached verbatim when truthy. -/
def buildReportRequest (property : String) (args : RunReportArgs) : ReportRequest :=
  { property,
    dateRanges := args.dateRanges,
    dimensions := args.dimensions.map (fun n => ⟨n⟩),
    metrics := args.metrics.map (fun n => ⟨n⟩),
    limit := toString args.limit,
    offset := toString args.offset,
    returnPropertyQuota := args.includeQuota,
    orderBys := match args.orderByMetric with
      | some s => if s = "" then none else some [⟨s, args.orderDescending⟩]
      | none => none,
    dimensionFilter := match args.filterExpression with
      | some f => if jsTruthy f then some f else none
      | none => none }

/-- The remote request the ga4.realtime executor assembles. -/
def buildRealtimeRequest (property : String) (args : RealtimeArgs) : RealtimeRequest :=
  { property,
    dimensions := args.dimensions.map (fun n => ⟨n⟩),
    metrics := args.metrics.map (fun n => ⟨n⟩),
    limit := toString args.limit }

/-- The ga4.run_report executor: construct the client, resolve the
property path, issue one remote report call and shape its response.  The
returned list records the requests the remote collaborator observed. -/
def runReportRun (env : Env) (rem : RemoteReq → GaResponse) (args : RunReportArgs) :
    List RemoteReq × Except Err Json :=
  match makeGa4Client env with
  | .error e => ([], .error e)
  | .ok _ =>
    match getGa4PropertyPath env with
    | .error e => ([], .error e)
    | .ok property =>
      ([.report (buildReportRequest property args)],
       .ok (reportResultJson (rem (.report (buildReportRequest property args)))))

/-- The ga4.realtime executor. -/
def realtimeRun (env : Env) (rem : RemoteReq → GaResponse) (args : RealtimeArgs) :
    List RemoteReq × Except Err Json :=
  match makeGa4Client env with
  | .error e => ([], .error e)
  | .ok _ =>
    match getGa4PropertyPath env with
    | .error e => ([], .error e)
    | .ok property =>
      ([.realtime (buildRealtimeRequest property args)],
       .ok (realtimeResultJson (rem (.realtime (buildRealtimeRequest property args)))))

/-- callTool of src/src/mcpServer.ts over the fixed two-tool registry:
look the name up, validate, then run.  The executor of the source parses
its input a second time; since it only ever receives the output of the
validator and the zod parse is idempotent on its own output, the model
parses once.  An unknown name throws the literal Error message. -/
def callTool (env : Env) (rem : RemoteReq → GaResponse) (name : String) (args : Json) :
    List RemoteReq × Except Err Json :=
  if name = "ga4.run_report" then
    match zRunReportParse args with
    | .error e => ([], .error e)
    | .ok a => runReportRun env rem a
  else if name = "ga4.realtime" then
    match zRealtimeParse args with
    | .error e => ([], .error e)
    | .ok a => realtimeRun env rem a
  else ([], .error (.notFound ("Unknown tool: " ++ name)))

/-- The ga4.run_report entry of listTools: both inputSchema and
input_schema carry the same document for client compatibility. -/
def toolRunReport : Json :=
  .obj [("name", .str "ga4.run_report"),
        ("description", .str "Run a GA4 Core report with dimensions/metrics and date ranges."),
        ("title", .str "GA4 runReport"),
        ("inputSchema", runReportInputSchema),
        ("input_schema", runReportInputSchema)]

/-- The ga4.realtime entry of listTools. -/
def toolRealtime : Json :=
  .obj [("name", .str "ga4.realtime"),
        ("description", .str "Get realtime active users by dimension."),
        ("title", .str "GA4 realtime"),
        ("inputSchema", realtimeInputSchema),
        ("input_schema", realtimeInputSchema)]

/-- listTools of src/src/mcpServer.ts: the two registered operations in
registration order. -/
def listTools : List Json :=
  [toolRunReport, toolRealtime]

/-- x ?? d on a looked-up property. -/
def jsNullishGet (o : Option Json) (d : Json) : Json :=
  match o with
  | none => d
  | some .null => d
  | some v => v

/-- t.inputSchema || t.input_schema || empty object. -/
def schemaOf (t : Json) : Json :=
  match t.lookup "inputSchema" with
  | some v =>
      if jsTruthy v then v
      else match t.lookup "input_schema" with
        | some w => if jsTruthy w then w else .obj []
        | none => .obj []
  | none =>
      match t.lookup "input_schema" with
      | some w => if jsTruthy w then w else .obj []
      | none => .obj []

/-- toAction of src/api/mcp.ts: the Actions-dialect wrapper around one
registry entry. -/
def toAction (t : Json) : Json :=
  let schema := schemaOf t
  .obj [
    ("name", jsNullishGet (t.lookup "name") .null),
    ("description", jsNullishGet (t.lookup "description") .null),
    ("parameters", .obj [
      ("$schema", .str "http://json-schema.org/draft-07/schema#"),
      ("type", .str "object"),
      ("additionalProperties", .bool false),
      ("properties", jsNullishGet (schema.lookup "properties") (.obj [])),
      ("required", jsNullishGet (schema.lookup "required") (.arr []))])]

/-- The actions array every enumeration response carries. -/
def actionsPayload : Json :=
  .arr (listTools.map toAction)

/-- The incoming POST envelope, restricted to exactly the properties the
dispatcher reads.  jsonrpc is kept only when the raw field is a string
(the typeof check of the source); the params sub-object is flattened to
the three properties read through it.  The raw method is modelled as an
optional string, matching every envelope whose method is absent or a
string. -/
structure Envelope where
  jsonrpc : Option String := none
  id : Option Json := none
  method : Option String := none
  name : Option Json := none
  tool_name : Option Json := none
  paramsName : Option Json := none
  paramsToolName : Option Json := none
  paramsProtocolVersion : Option Json := none
  arguments : Option Json := none
  paramsArguments : Option Json := none
  args : Option Json := none
  deriving Repr

/-- The dialect transformation applied to a raw method before alias
mapping: empty fallback, trim, lower-casing, whitespace removal, dots
rewritten to slashes. -/
def normalizeRaw (m : Option String) : String :=
  String.mk (((stripWhitespaceChars ((jsTrim (m.getD "")).data.map lowerChar)).map
    (fun c => if c = '.' then '/' else c)))

/-- Function normalize of src/api/mcp.ts (renamed, the bare name is taken by the mathematics library): dialect transformation, then the alias
sets collapsing the list-verb and call-verb spellings. -/
def normalizeMethod (m : Option String) : String :=
  let s := normalizeRaw m
  if s = "tools/list" ∨ s = "actions/list" ∨ s = "list" ∨ s = "get/actions" then "tools/list"
  else if s = "tools/call" ∨ s = "actions/call" ∨ s = "call" ∨ s = "invoke" then "tools/call"
  else s

/-- Operation-name resolution: raw.name ?? raw.tool_name ??
raw.params?.name ?? raw.params?.tool_name. -/
def resolveName (e : Envelope) : Option Json :=
  jsCoalesce e.name (jsCoalesce e.tool_name (jsCoalesce e.paramsName e.paramsToolName))

/-- Argument resolution: raw.arguments ?? raw.params?.arguments ??
raw.args ?? empty object. -/
def resolveArgs (e : Envelope) : Json :=
  match jsCoalesce e.arguments (jsCoalesce e.paramsArguments e.args) with
  | none => .obj []
  | some .null => .obj []
  | some v => v

/-- The id property of a JSON-RPC wrapped payload; an undefined id is
dropped by JSON serialization. -/
def idFields (e : Envelope) : List (String × Json) :=
  match e.id with
  | some i => [("id", i)]
  | none => []

/-- The uniform response wrapping: a declared jsonrpc version wraps the
result, otherwise the bare result is the payload. -/
def wrapResult (e : Envelope) (result : Json) : Json :=
  match e.jsonrpc with
  | some j => .obj ([("jsonrpc", .str j)] ++ idFields e ++ [("result", result)])
  | none => result

/-- The missing-tool-name reply: a code -32602 protocol error when the
request is JSON-RPC shaped, else a bare error string. -/
def missingNamePayload (e : Envelope) : Json :=
  match e.jsonrpc with
  | some j => .obj ([("jsonrpc", .str j)] ++ idFields e ++
      [("error", .obj [("code", .num (-32602)), ("message", .str "Missing tool name")])])
  | none => .obj [("error", .str "Missing tool name")]

/-- The initialize acknowledgment: echo the requested protocolVersion or
the fixed default, and advertise list and call under both dialects. -/
def initializeResult (e : Envelope) : Json :=
  .obj [
    ("protocolVersion", jsNullishGet e.paramsProtocolVersion (.str "2025-01-01")),
    ("serverInfo", .obj [("name", .str "ga4-mcp"), ("version", .str "1.0.0")]),
    ("capabilities", .obj [
      ("tools", .obj [("list", .bool true), ("call", .bool true)]),
      ("actions", .obj [("list", .bool true), ("call", .bool true)])])]

/-- The fallback result for an unrecognized method: the actions list
annotated with the raw method name (template coercion renders an absent
method as undefined). -/
def fallbackResult (e : Envelope) : Json :=
  .obj [("actions", actionsPayload),
        ("note", .str ("fallback for method: " ++ (match e.method with
          | some m => m
          | none => "undefined")))]

/-- The HTTP 500 body produced by the catch-all of the handler. -/
def errorBody (msg : String) : Json :=
  .obj [("error", .str (if msg = "" then "Internal Server Error" else msg))]

/-- An HTTP response of the dispatcher. -/
structure HttpResponse where
  status : Nat
  body : Json
  deriving Repr

/-- The POST path of the default handler of src/api/mcp.ts: initialize
short-circuit, list branch, call branch with name and argument
resolution, graceful fallback, and the catch-all that turns any error
thrown below the dispatch into a bare HTTP 500 body. -/
def handler (env : Env) (rem : RemoteReq → GaResponse) (e : Envelope) :
    List RemoteReq × HttpResponse :=
  let method := normalizeMethod e.method
  if method = "initialize" then
    ([], ⟨200, wrapResult e (initializeResult e)⟩)
  else if method = "tools/list" then
    ([], ⟨200, wrapResult e (.obj [("actions", actionsPayload)])⟩)
  else if method = "tools/call" then
    match resolveName e with
    | some v =>
        if jsTruthy v then
          match callTool env rem (jsToString v) (resolveArgs e) with
          | (tr, .ok result) => (tr, ⟨200, wrapResult e result⟩)
          | (tr, .error err) => (tr, ⟨500, errorBody err.message⟩)
        else ([], ⟨200, missingNamePayload e⟩)
    | none => ([], ⟨200, missingNamePayload e⟩)
  else
    ([], ⟨200, wrapResult e (fallbackResult e)⟩)

/-- toTool of src/unnamed/part_002: the MCP-dialect wrapper around one
registry entry. -/
def toTool (t : Json) : Json :=
  let schema := schemaOf t
  .obj [
    ("name", jsNullishGet (t.lookup "name") .null),
    ("description", jsNullishGet (t.lookup "description") .null),
    ("inputSchema", schema),
    ("input_schema", schema)]

/-- The enumeration result of the part_002 draft, listing both dialect
shapes at once. -/
def listResult002 : Json :=
  .obj [("schema_version", .str "v1"),
        ("actions", actionsPayload),
        ("tools", .arr (listTools.map toTool))]

/-- The fallback result of the part_002 draft. -/
def fallbackResult002 (e : Envelope) : Json :=
  .obj [("schema_version", .str "v1"),
        ("actions", actionsPayload),
        ("tools", .arr (listTools.map toTool)),
        ("note", .str ("fallback for method: " ++ (match e.method with
          | some m => m
          | none => "undefined")))]

/-- The POST path of the handler draft in src/unnamed/part_002; it
differs from src/api/mcp.ts by an explicit branch answering
notifications/initialized with an empty result, and by richer
enumeration payloads. -/
def handler002 (env : Env) (rem : RemoteReq → GaResponse) (e : Envelope) :
    List RemoteReq × HttpResponse :=
  let method := normalizeMethod e.method
  if method = "initialize" then
    ([], ⟨200, wrapResult e (initializeResult e)⟩)
  else if method = "notifications/initialized" then
    ([], ⟨200, wrapResult e (.obj [])⟩)
  else if method = "tools/list" then
    ([], ⟨200, wrapResult e listResult002⟩)
  else if method = "tools/call" then
    match resolveName e with
    | some v =>
        if jsTruthy v then
          match callTool env rem (jsToString v) (resolveArgs e) with
          | (tr, .ok result) => (tr, ⟨200, wrapResult e result⟩)
          | (tr, .error err) => (tr, ⟨500, errorBody err.message⟩)
        else ([], ⟨200, missingNamePayload e⟩)
    | none => ([], ⟨200, missingNamePayload e⟩)
  else
    ([], ⟨200, wrapResult e (fallbackResult002 e)⟩)

/-- Where a call-verb envelope carries the operation name. -/
inductive NameLoc where
  | atName
  | atToolName
  | atParamsName
  | atParamsToolName
  deriving Repr, DecidableEq

/-- Place an operation name at one of the four recognized locations. -/
def putName (e : Envelope) (l : NameLoc) (v : Json) : Envelope :=
  match l with
  | .atName => { e with name := some v }
  | .atToolName => { e with tool_name := some v }
  | .atParamsName => { e with paramsName := some v }
  | .atParamsToolName => { e with paramsToolName := some v }

/-- The trivial remote collaborator used in concrete evaluations: every
request yields an empty response. -/
def rem0 : RemoteReq → GaResponse := fun _ => {}

/-- The empty environment used in concrete evaluations of branches that
never construct a client. -/
def env0 : Env := {}

/-- A successful callTool result never carries a jsonrpc key: the tool
results are built from content and structuredContent only. -/
theorem callTool_ok_no_jsonrpc {env : Env} {rem : RemoteReq → GaResponse}
    {name : String} {args : Json} {tr : List RemoteReq} {r : Json}
    (h : callTool env rem name args = (tr, .ok r)) :
    r.lookup "jsonrpc" = none := by
  simp only [callTool, runReportRun, realtimeRun] at h
  repeat' split at h
  all_goals rw [Prod.mk.injEq] at h
  all_goals obtain ⟨h1, h2⟩ := h
  all_goals first
    | (simp only [Except.ok.injEq] at h2; subst h2; rfl)
    | exact absurd h2 (by simp)

/-- C2: for the envelope jsonrpc 2.0, id 7, method tools/call with no
resolvable operation name, the dispatcher answers HTTP 200 with exactly
the JSON-RPC error object code -32602, message Missing tool name, and
the remote collaborator observes no invocation. -/
theorem c2_missing_tool_name_exact_reply (env : Env) (rem : RemoteReq → GaResponse) :
    handler env rem { jsonrpc := some "2.0", id := some (.num 7), method := some "tools/call" } =
      ([], ⟨200, .obj [("jsonrpc", .str "2.0"), ("id", .num 7),
        ("error", .obj [("code", .num (-32602)), ("message", .str "Missing tool name")])]⟩) := by
  rfl

/-- The handler reads an envelope only through its jsonrpc, id, method
and protocolVersion fields and the two resolution functions. -/
theorem handler_ext (env : Env) (rem : RemoteReq → GaResponse) {e1 e2 : Envelope}
    (hj : e1.jsonrpc = e2.jsonrpc) (hi : e1.id = e2.id) (hm : e1.method = e2.method)
    (hp : e1.paramsProtocolVersion = e2.paramsProtocolVersion)
    (hn : resolveName e1 = resolveName e2) (ha : resolveArgs e1 = resolveArgs e2) :
    handler env rem e1 = handler env rem e2 := by
  simp only [handler, wrapResult, missingNamePayload, initializeResult, fallbackResult,
    idFields, errorBody]
  rw [hj, hi, hm, hp, hn, ha]

/-- A non-null value is not nullish. -/
theorem jsNullish_some {a : Json} (h : a ≠ Json.null) : jsNullish (some a) = false := by
  cases a <;> first | exact absurd rfl h | rfl

/-- A nullish left operand of ?? falls through. -/
theorem jsCoalesce_nullish {a b : Option Json} (h : jsNullish a = true) : jsCoalesce a b = b := by
  simp [jsCoalesce, h]

/-- A non-nullish left operand of ?? wins. -/
theorem jsCoalesce_not_nullish {a b : Option Json} (h : jsNullish a = false) :
    jsCoalesce a b = a := by
  simp [jsCoalesce, h]

/-- Evaluation of the handler on a call-verb envelope: the three branch
tests reduce and the call branch remains. -/
theorem handler_call_eval (env : Env) (rem : RemoteReq → GaResponse) (e : Envelope)
    (hm : normalizeMethod e.method = "tools/call") :
    handler env rem e =
      (match resolveName e with
       | some v =>
         if jsTruthy v then
           match callTool env rem (jsToString v) (resolveArgs e) with
           | (tr, .ok result) => (tr, ⟨200, wrapResult e result⟩)
           | (tr, .error err) => (tr, ⟨500, errorBody err.message⟩)
         else ([], ⟨200, missingNamePayload e⟩)
       | none => ([], ⟨200, missingNamePayload e⟩)) := by
  simp only [handler, hm]
  rfl

/-- C1: for a call-verb envelope, the four recognized name locations are
checked in priority order and any single one of them resolves the same
operation name, so four envelopes identical except for the location of
the name produce identical dispatches; arguments resolve from arguments,
then params.arguments, then args, defaulting to the empty object. -/
theorem c1_name_location_and_argument_resolution (env : Env) (rem : RemoteReq → GaResponse)
    (e : Envelope) (v : Json)
    (hm : normalizeMethod e.method = "tools/call")
    (h1 : e.name = none) (h2 : e.tool_name = none)
    (h3 : e.paramsName = none) (h4 : e.paramsToolName = none) :
    (∀ l1 l2 : NameLoc, handler env rem (putName e l1 v) = handler env rem (putName e l2 v))
    ∧ (v ≠ Json.null → ∀ l : NameLoc, resolveName (putName e l v) = some v)
    ∧ (∀ e2 : Envelope, ∀ a : Json, e2.name = some a → a ≠ Json.null →
        resolveName e2 = some a)
    ∧ (∀ e2 : Envelope, ∀ a : Json, jsNullish e2.name = true → e2.tool_name = some a →
        a ≠ Json.null → resolveName e2 = some a)
    ∧ (∀ e2 : Envelope, ∀ a : Json, jsNullish e2.name = true → jsNullish e2.tool_name = true →
        e2.paramsName = some a → a ≠ Json.null → resolveName e2 = some a)
    ∧ (∀ e2 : Envelope, ∀ a : Json, jsNullish e2.name = true → jsNullish e2.tool_name = true →
        jsNullish e2.paramsName = true → e2.paramsToolName = some a → a ≠ Json.null →
        resolveName e2 = some a)
    ∧ (∀ e2 : Envelope, ∀ a : Json, e2.arguments = some a → a ≠ Json.null →
        resolveArgs e2 = a)
    ∧ (∀ e2 : Envelope, ∀ a : Json, jsNullish e2.arguments = true → e2.paramsArguments = some a →
        a ≠ Json.null → resolveArgs e2 = a)
    ∧ (∀ e2 : Envelope, ∀ a : Json, jsNullish e2.arguments = true →
        jsNullish e2.paramsArguments = true → e2.args = some a → a ≠ Json.null →
        resolveArgs e2 = a)
    ∧ (∀ e2 : Envelope, jsNullish e2.arguments = true → jsNullish e2.paramsArguments = true →
        jsNullish e2.args = true → resolveArgs e2 = Json.obj []) := by
  have key : v ≠ Json.null → ∀ l : NameLoc, resolveName (putName e l v) = some v := by
    intro hv l
    have hf : jsNullish (some v) = false := jsNullish_some hv
    cases l <;>
      simp only [putName, resolveName] <;>
      simp only [h1, h2, h3, h4, jsCoalesce_nullish (show jsNullish none = true from rfl),
        jsCoalesce_not_nullish hf]
  have hnullcase : ∀ l : NameLoc, handler env rem (putName e l Json.null) =
      ([], ⟨200, missingNamePayload e⟩) := by
    intro l
    have hmeth : normalizeMethod (putName e l Json.null).method = "tools/call" := by
      cases l <;> simpa [putName] using hm
    have hmp : missingNamePayload (putName e l Json.null) = missingNamePayload e := by
      cases l <;> simp [putName, missingNamePayload, idFields]
    rw [handler_call_eval env rem _ hmeth]
    have hres : jsNullish (resolveName (putName e l Json.null)) = true := by
      cases l <;>
        simp only [putName, resolveName] <;>
        simp [h1, h2, h3, h4, jsCoalesce, jsNullish]
    rcases hr : resolveName (putName e l Json.null) with _ | w
    · rw [hmp]
    · rw [hr] at hres
      have hw : w = Json.null := by
        cases w <;> first | rfl | exact absurd hres (by simp [jsNullish])
      subst hw
      rw [hmp]
      rfl
  refine ⟨?_, key, ?_, ?_, ?_, ?_, ?_, ?_, ?_, ?_⟩
  · intro l1 l2
    by_cases hv : v = Json.null
    · subst hv
      rw [hnullcase l1, hnullcase l2]
    · refine handler_ext env rem ?_ ?_ ?_ ?_ ?_ ?_
      · cases l1 <;> cases l2 <;> simp [putName]
      · cases l1 <;> cases l2 <;> simp [putName]
      · cases l1 <;> cases l2 <;> simp [putName]
      · cases l1 <;> cases l2 <;> simp [putName]
      · rw [key hv l1, key hv l2]
      · cases l1 <;> cases l2 <;> simp [putName, resolveArgs]
  · intro e2 a hname hnull
    simp only [resolveName, hname, jsCoalesce_not_nullish (jsNullish_some hnull)]
  · intro e2 a hn1 hname hnull
    simp only [resolveName, hname, jsCoalesce_nullish hn1,
      jsCoalesce_not_nullish (jsNullish_some hnull)]
  · intro e2 a hn1 hn2 hname hnull
    simp only [resolveName, hname, jsCoalesce_nullish hn1, jsCoalesce_nullish hn2,
      jsCoalesce_not_nullish (jsNullish_some hnull)]
  · intro e2 a hn1 hn2 hn3 hname hnull
    simp only [resolveName, hname, jsCoalesce_nullish hn1, jsCoalesce_nullish hn2,
      jsCoalesce_nullish hn3]
  · intro e2 a hargs hnull
    simp only [resolveArgs, hargs, jsCoalesce_not_nullish (jsNullish_some hnull)]
  · intro e2 a hn1 hargs hnull
    simp only [resolveArgs, hargs, jsCoalesce_nullish hn1,
      jsCoalesce_not_nullish (jsNullish_some hnull)]
  · intro e2 a hn1 hn2 hargs hnull
    simp only [resolveArgs, hargs, jsCoalesce_nullish hn1, jsCoalesce_nullish hn2,
      jsCoalesce_not_nullish (jsNullish_some hnull)]
  · intro e2 hn1 hn2 hn3
    simp only [resolveArgs, jsCoalesce_nullish hn1, jsCoalesce_nullish hn2]
    cases hw : e2.args with
    | none => rfl
    | some w =>
      rw [hw] at hn3
      have hwn : w = Json.null := by
        cases w <;> first | rfl | exact absurd hn3 (by simp [jsNullish])
      subst hwn
      rfl

/-- Witness for C1 at a concrete call envelope: the name placed at the
top level and at params.tool_name dispatches identically, and an
envelope without argument fields resolves the empty object. -/
theorem c1_witness :
    handler env0 rem0 (putName { method := some "tools/call" } NameLoc.atName (.str "x")) =
      handler env0 rem0 (putName { method := some "tools/call" } NameLoc.atParamsToolName (.str "x"))
    ∧ resolveArgs { method := some "tools/call" } = Json.obj [] :=
  ⟨(c1_name_location_and_argument_resolution env0 rem0 { method := some "tools/call" }
      (.str "x") rfl rfl rfl rfl rfl).1 NameLoc.atName NameLoc.atParamsToolName,
   (c1_name_location_and_argument_resolution env0 rem0 { method := some "tools/call" }
      (.str "x") rfl rfl rfl rfl rfl).2.2.2.2.2.2.2.2.2
     { method := some "tools/call" } rfl rfl rfl⟩

/-- Evaluation of the handler on a list-verb envelope. -/
theorem handler_list_eval (env : Env) (rem : RemoteReq → GaResponse) (e : Envelope)
    (hm : normalizeMethod e.method = "tools/list") :
    handler env rem e = ([], ⟨200, wrapResult e (.obj [("actions", actionsPayload)])⟩) := by
  simp only [handler, hm]
  rfl

/-- The four list spellings all normalize to the canonical list verb. -/
theorem normalizeMethod_list_alias (m : Option String)
    (h : normalizeRaw m = "tools/list" ∨ normalizeRaw m = "actions/list" ∨
         normalizeRaw m = "list" ∨ normalizeRaw m = "get/actions") :
    normalizeMethod m = "tools/list" := by
  rcases h with h | h | h | h <;> (unfold normalizeMethod; rw [h]; rfl)

/-- C3 counterexample: the claim groups the empty method with the four
list spellings, but the dispatcher sends the empty method to the
fallback branch, whose payload carries an extra note, so the two
response bodies differ. -/
theorem c3_counterexample :
    (handler env0 rem0 { method := some "" }).2.body ≠
      (handler env0 rem0 { method := some "list" }).2.body := by
  intro h
  have h2 : (true : Bool) = false := congrArg (fun j => hasKey j "note") h
  exact Bool.noConfusion h2

/-- C3 amended: every method whose dialect normalization is one of the
four list spellings produces the identical enumeration payload listing
the two registered operations with their schemas; the empty method also
enumerates both operations and is never an error, but through the
fallback payload that adds a note. -/
theorem c3_list_spellings_enumerate (env : Env) (rem : RemoteReq → GaResponse) (e : Envelope) :
    (∀ m : String, e.method = some m →
      (normalizeRaw (some m) = "tools/list" ∨ normalizeRaw (some m) = "actions/list" ∨
       normalizeRaw (some m) = "list" ∨ normalizeRaw (some m) = "get/actions") →
      handler env rem e = ([], ⟨200, wrapResult e (.obj [("actions", actionsPayload)])⟩))
    ∧ (e.method = some "" →
      handler env rem e = ([], ⟨200, wrapResult e (fallbackResult e)⟩))
    ∧ actionsPayload = .arr [toAction toolRunReport, toAction toolRealtime]
    ∧ ((toAction toolRunReport).lookup "parameters").bind (fun p => p.lookup "required") =
        some (.arr [.str "dimensions", .str "metrics", .str "dateRanges"])
    ∧ ((toAction toolRealtime).lookup "parameters").bind (fun p => p.lookup "required") =
        some (.arr [.str "dimensions", .str "metrics"])
    ∧ ((toAction toolRunReport).lookup "parameters").bind (fun p => p.lookup "properties") =
        runReportInputSchema.lookup "properties"
    ∧ ((toAction toolRealtime).lookup "parameters").bind (fun p => p.lookup "properties") =
        realtimeInputSchema.lookup "properties" := by
  refine ⟨?_, ?_, rfl, rfl, rfl, rfl, rfl⟩
  · intro m hm hraw
    exact handler_list_eval env rem e (by rw [hm]; exact normalizeMethod_list_alias (some m) hraw)
  · intro hm
    have hempty : normalizeMethod e.method = "" := by rw [hm]; rfl
    simp only [handler, hempty]
    rfl

/-- Witness for C3 at two concrete envelopes: a dotted upper-case list
spelling enumerates, and the empty method falls back. -/
theorem c3_witness :
    handler env0 rem0 { method := some " Actions.List " } =
      ([], ⟨200, wrapResult { method := some " Actions.List " }
        (.obj [("actions", actionsPayload)])⟩)
    ∧ handler env0 rem0 { method := some "" } =
      ([], ⟨200, wrapResult { method := some "" } (fallbackResult { method := some "" })⟩) :=
  ⟨(c3_list_spellings_enumerate env0 rem0 { method := some " Actions.List " }).1
      " Actions.List " rfl (Or.inr (Or.inl rfl)),
   (c3_list_spellings_enumerate env0 rem0 { method := some "" }).2.1 rfl⟩

/-- A wrapped payload carries the jsonrpc key exactly when the request
declared one, provided the bare result itself does not carry one. -/
theorem hasKey_wrapResult (e : Envelope) (r : Json) (hr : r.lookup "jsonrpc" = none) :
    hasKey (wrapResult e r) "jsonrpc" = e.jsonrpc.isSome := by
  cases hj : e.jsonrpc with
  | none => simp [wrapResult, hasKey, hj, hr]
  | some j => simp [wrapResult, hasKey, hj, Json.lookup, Json.lookup.lookupFields]

/-- The missing-name payload mirrors the request shape as well. -/
theorem hasKey_missingNamePayload (e : Envelope) :
    hasKey (missingNamePayload e) "jsonrpc" = e.jsonrpc.isSome := by
  cases hj : e.jsonrpc with
  | none => simp [missingNamePayload, hasKey, hj, Json.lookup, Json.lookup.lookupFields]
  | some j => simp [missingNamePayload, hasKey, hj, Json.lookup, Json.lookup.lookupFields]

/-- A JSON-RPC call envelope naming an unregistered tool. -/
def c4Env : Envelope :=
  { jsonrpc := some "2.0", id := some (.num 1),
    method := some "tools/call", name := some (.str "nope") }

/-- C4 counterexample: a JSON-RPC request whose call reaches an unknown
tool receives a bare error body with HTTP 500, not the declared
JSON-RPC wrapping, although the request declared jsonrpc 2.0. -/
theorem c4_counterexample :
    (handler env0 rem0 c4Env).2 = ⟨500, .obj [("error", .str "Unknown tool: nope")]⟩
    ∧ c4Env.jsonrpc.isSome = true
    ∧ hasKey (handler env0 rem0 c4Env).2.body "jsonrpc" = false :=
  ⟨rfl, rfl, rfl⟩

/-- C4 amended: every HTTP 200 response of the dispatcher is JSON-RPC
wrapped exactly when the request declared a jsonrpc version string, but
the catch-all error path returns a bare error object with HTTP 500
regardless of the declared version. -/
theorem c4_envelope_mirroring (env : Env) (rem : RemoteReq → GaResponse) (e : Envelope) :
    ((handler env rem e).2.status = 200 →
      hasKey (handler env rem e).2.body "jsonrpc" = e.jsonrpc.isSome)
    ∧ ((handler env rem e).2.status = 500 →
      hasKey (handler env rem e).2.body "jsonrpc" = false) := by
  constructor
  · simp only [handler]
    split
    · intro _
      exact hasKey_wrapResult e _ rfl
    · split
      · intro _
        exact hasKey_wrapResult e _ rfl
      · split
        · split
          · split
            · split
              · next tr result heq =>
                  intro _
                  exact hasKey_wrapResult e _ (callTool_ok_no_jsonrpc heq)
              · intro h
                simp at h
            · intro _
              exact hasKey_missingNamePayload e
          · intro _
            exact hasKey_missingNamePayload e
        · intro _
          exact hasKey_wrapResult e _ rfl
  · simp only [handler]
    split
    · intro h
      simp at h
    · split
      · intro h
        simp at h
      · split
        · split
          · split
            · split
              · intro h
                simp at h
              · intro _
                rfl
            · intro h
              simp at h
          · intro h
            simp at h
        · intro h
          simp at h

/-- Witness for C4 at a concrete JSON-RPC list request: the 200 reply is
wrapped. -/
def c4WitnessEnv : Envelope :=
  { jsonrpc := some "2.0", id := some (.num 3), method := some "tools/list" }

/-- Witness for C4: the mirroring direction holds at a concrete wrapped
request. -/
theorem c4_witness :
    hasKey (handler env0 rem0 c4WitnessEnv).2.body "jsonrpc" = true :=
  (c4_envelope_mirroring env0 rem0 c4WitnessEnv).1 rfl

/-- The Unknown tool message is never the empty string, so the catch-all
never substitutes its generic text for it. -/
theorem unknown_msg_ne_empty (s : String) : ("Unknown tool: " ++ s) ≠ "" := by
  intro hcontra
  have hlen := congrArg String.length hcontra
  simp [String.length_append] at hlen
  exact absurd hlen.1 (by decide)

/-- A JSON-RPC call envelope naming an unregistered ga4 tool. -/
def c5Env : Envelope :=
  { jsonrpc := some "2.0", id := some (.num 2),
    method := some "tools/call", name := some (.str "ga4.bogus") }

/-- C5 counterexample: an unknown tool name produces an HTTP 500 with a
bare error object whose message is the capitalised Unknown tool text,
not a JSON-RPC error envelope with HTTP 200. -/
theorem c5_counterexample :
    handler env0 rem0 c5Env =
      ([], ⟨500, .obj [("error", .str "Unknown tool: ga4.bogus")]⟩) := rfl

/-- C5 amended: a call-verb envelope resolving a non-empty string name
that is not one of the two registered operations is answered, with no
alias translation and no remote invocation, by HTTP 500 carrying the
bare error object with message Unknown tool followed by the name. -/
theorem c5_unknown_tool_http500 (env : Env) (rem : RemoteReq → GaResponse)
    (e : Envelope) (s : String)
    (hm : normalizeMethod e.method = "tools/call")
    (hn : resolveName e = some (.str s)) (hs : s ≠ "")
    (h1 : s ≠ "ga4.run_report") (h2 : s ≠ "ga4.realtime") :
    handler env rem e = ([], ⟨500, .obj [("error", .str ("Unknown tool: " ++ s))]⟩) := by
  rw [handler_call_eval env rem e hm]
  simp only [hn]
  have ht : jsTruthy (.str s) = true := by simp [jsTruthy, hs]
  rw [ht]
  simp only [callTool, jsToString, if_neg h1, if_neg h2, Err.message, errorBody,
    if_neg (unknown_msg_ne_empty s)]
  rw [if_pos trivial]

/-- Witness for C5 at a concrete unregistered name. -/
def c5WitnessEnv : Envelope :=
  { method := some "invoke", tool_name := some (.str "ga4_run_report") }

/-- Witness for C5: the amended statement applied at a concrete call
with an underscore-spelled name that the registry does not hold. -/
theorem c5_witness :
    handler env0 rem0 c5WitnessEnv =
      ([], ⟨500, .obj [("error", .str ("Unknown tool: " ++ "ga4_run_report"))]⟩) :=
  c5_unknown_tool_http500 env0 rem0 c5WitnessEnv "ga4_run_report" rfl rfl
    (by decide) (by decide) (by decide)

/-- An envelope carrying the post-handshake notification method. -/
def c6Env : Envelope := { method := some "notifications/initialized" }

/-- C6 counterexample: the dispatcher of api/mcp.ts does not answer
notifications/initialized with an empty result object; it answers with
the fallback enumeration payload carrying the actions and a note. -/
theorem c6_counterexample :
    (handler env0 rem0 c6Env).2.body ≠ Json.obj []
    ∧ (handler env0 rem0 c6Env).2 =
        ⟨200, .obj [("actions", actionsPayload),
          ("note", .str "fallback for method: notifications/initialized")]⟩ := by
  constructor
  · intro h
    have h2 : Json.obj [("actions", actionsPayload),
        ("note", .str "fallback for method: notifications/initialized")] = Json.obj [] := h
    injection h2 with h3
    exact List.noConfusion h3
  · rfl

/-- C6 amended: an envelope whose method is literally
notifications/initialized is answered with a success: the api/mcp.ts
dispatcher replies with the graceful-fallback enumeration result, never
an unknown-method error, while only the part_002 draft replies with the
empty result object, each wrapped per the mirroring rule. -/
theorem c6_notifications_initialized (env : Env) (rem : RemoteReq → GaResponse)
    (e : Envelope) (hm : e.method = some "notifications/initialized") :
    handler env rem e = ([], ⟨200, wrapResult e (fallbackResult e)⟩)
    ∧ handler002 env rem e = ([], ⟨200, wrapResult e (.obj [])⟩) := by
  have hn : normalizeMethod e.method = "notifications/initialized" := by rw [hm]; rfl
  constructor
  · simp only [handler, hn]
    rfl
  · simp only [handler002, hn]
    rfl

/-- Witness for C6: both handlers evaluated at the concrete
notification envelope. -/
theorem c6_witness :
    handler env0 rem0 c6Env = ([], ⟨200, wrapResult c6Env (fallbackResult c6Env)⟩)
    ∧ handler002 env0 rem0 c6Env = ([], ⟨200, wrapResult c6Env (.obj [])⟩) :=
  c6_notifications_initialized env0 rem0 c6Env rfl

/-- C7: a validated runReport call issues exactly one remote request and
shapes the response with dimension headers then metric headers in server
order, rows as dimension values then metric values, rowCount equal to
the number of rows actually returned, and sampled true exactly when the
server reports a total row count above the returned rows. -/
theorem c7_run_report_shaping (env : Env) (rem : RemoteReq → GaResponse)
    (input : Json) (a : RunReportArgs) (c : Ga4Client) (p : String)
    (hp1 : zRunReportParse input = .ok a)
    (hp2 : makeGa4Client env = .ok c)
    (hp3 : getGa4PropertyPath env = .ok p) :
    callTool env rem "ga4.run_report" input =
      ([.report (buildReportRequest p a)],
       .ok (reportResultJson (rem (.report (buildReportRequest p a)))))
    ∧ (∀ resp : GaResponse,
        shapedHeaders resp =
          (resp.dimensionHeaders.getD []).map (fun n => Header.mk .dimension n) ++
            (resp.metricHeaders.getD []).map (fun n => Header.mk .metric n)
        ∧ shapedRows resp =
            (resp.rows.getD []).map
              (fun r => r.dimensionValues.getD [] ++ r.metricValues.getD [])
        ∧ ((reportResultJson resp).lookup "structuredContent").bind
            (fun sc => sc.lookup "rowCount") = some (.num ((shapedRows resp).length))
        ∧ (sampledFlag resp = true ↔
            ∃ total : Int, resp.rowCount = some total ∧
              ((shapedRows resp).length : Int) < total)) := by
  constructor
  · simp only [callTool, if_pos rfl, hp1, runReportRun, hp2, hp3]
    rw [if_pos trivial]
  · intro resp
    refine ⟨rfl, rfl, rfl, ?_⟩
    cases ht : resp.rowCount with
    | none => simp [sampledFlag, ht]
    | some total => simp [sampledFlag, ht]

/-- A concrete environment with the email and key pair configured. -/
def c7Env : Env :=
  { clientEmail := some "svc@example.com", privateKey := some "key",
    ga4PropertyId := some "123" }

/-- A concrete remote response: one dimension header, one metric header,
two rows, a server total of ten matching rows. -/
def c7Resp : GaResponse :=
  { dimensionHeaders := some ["pagePath"], metricHeaders := some ["activeUsers"],
    rows := some [{ dimensionValues := some ["/a"], metricValues := some ["5"] },
                  { dimensionValues := some ["/b"], metricValues := some ["3"] }],
    rowCount := some 10 }

/-- A deterministic remote collaborator answering every request with the
concrete response. -/
def c7Rem : RemoteReq → GaResponse := fun _ => c7Resp

/-- The defaults zRunReport applies to an empty argument object. -/
def c7Args : RunReportArgs :=
  { dateRanges := [⟨"7daysAgo", "today"⟩], dimensions := ["pagePath"],
    metrics := ["activeUsers"], limit := 100, offset := 0, orderByMetric := none,
    orderDescending := true, filterExpression := none, includeQuota := true }

/-- Witness for C7: the concrete call issues one remote request and
reports the truncated result as sampled. -/
theorem c7_witness :
    callTool c7Env c7Rem "ga4.run_report" (.obj []) =
      ([.report (buildReportRequest "properties/123" c7Args)],
       .ok (reportResultJson c7Resp))
    ∧ sampledFlag c7Resp = true :=
  ⟨(c7_run_report_shaping c7Env c7Rem (.obj []) c7Args
      ⟨none, ⟨some "svc@example.com", some "key"⟩⟩ "properties/123" rfl rfl rfl).1,
   ((c7_run_report_shaping c7Env c7Rem (.obj []) c7Args
      ⟨none, ⟨some "svc@example.com", some "key"⟩⟩ "properties/123" rfl rfl rfl).2
        c7Resp).2.2.2.mpr ⟨10, rfl, by decide⟩⟩

/-- A successful zRunReport parse forces a supplied limit into the
closed range 1 to 10000. -/
theorem zRunReportCore_ok_limit {j : Json} {a : RunReportArgs} {n : Int}
    (hok : zRunReportCore j = .ok a) (hl : j.lookup "limit" = some (.num n)) :
    1 ≤ n ∧ n ≤ 10000 := by
  by_cases hrange : 1 ≤ n ∧ n ≤ 10000
  · exact hrange
  exfalso
  have hfield : fieldWithDefault j "limit" (100 : Int) parseLimit = Except.error "limit" := by
    simp only [fieldWithDefault, hl, parseLimit, if_neg hrange]
  rcases hj : j with _ | _ | _ | _ | _ | fields <;> rw [hj] at hok
  · simp [zRunReportCore] at hok
  · simp [zRunReportCore] at hok
  · simp [zRunReportCore] at hok
  · simp [zRunReportCore] at hok
  · simp [zRunReportCore] at hok
  · rw [hj] at hfield
    simp only [zRunReportCore] at hok
    rcases hf1 : fieldWithDefault (Json.obj fields) "dateRanges" [⟨"7daysAgo", "today"⟩]
        parseDateRanges with m1 | v1 <;> rw [hf1] at hok
    · simp [Bind.bind, Except.bind] at hok
    rcases hf2 : fieldWithDefault (Json.obj fields) "dimensions" ["pagePath"]
        parseStringList with m2 | v2 <;> rw [hf2] at hok
    · simp [Bind.bind, Except.bind] at hok
    rcases hf3 : fieldWithDefault (Json.obj fields) "metrics" ["activeUsers"]
        parseStringList with m3 | v3 <;> rw [hf3] at hok
    · simp [Bind.bind, Except.bind] at hok
    rw [hfield] at hok
    simp [Bind.bind, Except.bind] at hok

/-- A successful zRealtime parse forces a supplied limit into the closed
range 1 to 10000. -/
theorem zRealtimeCore_ok_limit {j : Json} {a : RealtimeArgs} {n : Int}
    (hok : zRealtimeCore j = .ok a) (hl : j.lookup "limit" = some (.num n)) :
    1 ≤ n ∧ n ≤ 10000 := by
  by_cases hrange : 1 ≤ n ∧ n ≤ 10000
  · exact hrange
  exfalso
  have hfield : fieldWithDefault j "limit" (100 : Int) parseLimit = Except.error "limit" := by
    simp only [fieldWithDefault, hl, parseLimit, if_neg hrange]
  rcases hj : j with _ | _ | _ | _ | _ | fields <;> rw [hj] at hok
  · simp [zRealtimeCore] at hok
  · simp [zRealtimeCore] at hok
  · simp [zRealtimeCore] at hok
  · simp [zRealtimeCore] at hok
  · simp [zRealtimeCore] at hok
  · rw [hj] at hfield
    simp only [zRealtimeCore] at hok
    rcases hf1 : fieldWithDefault (Json.obj fields) "dimensions" ["country"]
        parseStringList with m1 | v1 <;> rw [hf1] at hok
    · simp [Bind.bind, Except.bind] at hok
    rcases hf2 : fieldWithDefault (Json.obj fields) "metrics" ["activeUsers"]
        parseStringList with m2 | v2 <;> rw [hf2] at hok
    · simp [Bind.bind, Except.bind] at hok
    rw [hfield] at hok
    simp [Bind.bind, Except.bind] at hok

/-- C8: a limit outside 1..10000 makes validation reject either
operation with a ValidationError before execution: the call returns the
error and the remote collaborator observes zero invocations. -/
theorem c8_limit_validation (env : Env) (rem : RemoteReq → GaResponse)
    (argsJ : Json) (n : Int)
    (hl : argsJ.lookup "limit" = some (.num n))
    (hout : n < 1 ∨ 10000 < n) :
    (∃ m, callTool env rem "ga4.run_report" argsJ = ([], .error (.validation m)))
    ∧ (∃ m, callTool env rem "ga4.realtime" argsJ = ([], .error (.validation m))) := by
  have hrange : ¬ (1 ≤ n ∧ n ≤ 10000) := by omega
  constructor
  · rcases hc : zRunReportCore argsJ with m | a
    · refine ⟨m, ?_⟩
      simp only [callTool, if_pos rfl, zRunReportParse, hc]
      rfl
    · exact absurd (zRunReportCore_ok_limit hc hl) hrange
  · rcases hc : zRealtimeCore argsJ with m | a
    · refine ⟨m, ?_⟩
      simp only [callTool, if_neg (by decide : ¬ ("ga4.realtime" = "ga4.run_report")),
        if_pos rfl, zRealtimeParse, hc]
      rfl
    · exact absurd (zRealtimeCore_ok_limit hc hl) hrange

/-- Witness for C8 at the concrete out-of-range limit zero. -/
theorem c8_witness :
    (∃ m, callTool env0 rem0 "ga4.run_report" (.obj [("limit", .num 0)]) =
      ([], .error (.validation m)))
    ∧ (∃ m, callTool env0 rem0 "ga4.realtime" (.obj [("limit", .num 0)]) =
      ([], .error (.validation m))) :=
  c8_limit_validation env0 rem0 (.obj [("limit", .num 0)]) 0 rfl (Or.inl (by decide))

/-- C9 counterexample: the published required list of ga4.run_report is
not the list of validator fields lacking a default; dimensions is
required by the schema yet carries a validator default. -/
theorem c9_counterexample :
    requiredOf runReportInputSchema ≠ fieldsWithoutDefault zRunReportFieldHasDefault
    ∧ "dimensions" ∈ requiredOf runReportInputSchema
    ∧ ("dimensions", true) ∈ zRunReportFieldHasDefault := by
  refine ⟨?_, by decide, by decide⟩
  intro h
  have h2 : (["dimensions", "metrics", "dateRanges"] : List String) =
      ["orderByMetric", "filterExpression"] := h
  exact absurd h2 (by decide)

/-- C9 amended: each published required list names only fields that do
have validator defaults; the only no-default validator fields are the
optional orderByMetric and filterExpression of runReport, and the
realtime validator has no no-default field at all, so neither required
list matches the no-default set. -/
theorem c9_required_versus_defaults :
    requiredOf runReportInputSchema = ["dimensions", "metrics", "dateRanges"]
    ∧ requiredOf realtimeInputSchema = ["dimensions", "metrics"]
    ∧ fieldsWithoutDefault zRunReportFieldHasDefault = zRunReportOptionalFields
    ∧ fieldsWithoutDefault zRealtimeFieldHasDefault = []
    ∧ (requiredOf runReportInputSchema).all
        (fun f => zRunReportFieldHasDefault.contains (f, true)) = true
    ∧ (requiredOf realtimeInputSchema).all
        (fun f => zRealtimeFieldHasDefault.contains (f, true)) = true := by
  refine ⟨rfl, rfl, rfl, rfl, by decide, by decide⟩

/-- C10: a call-verb envelope whose resolved name is present but falsy
is answered with the missing-tool-name reply and no remote invocation,
without consulting the registry; the registry call is reached exactly
for a truthy resolved name. -/
theorem c10_falsy_name_short_circuit (env : Env) (rem : RemoteReq → GaResponse)
    (e : Envelope) (v : Json)
    (hm : normalizeMethod e.method = "tools/call")
    (hn : resolveName e = some v) :
    (jsTruthy v = false →
      handler env rem e = ([], ⟨200, missingNamePayload e⟩))
    ∧ (jsTruthy v = true →
      handler env rem e =
        ((callTool env rem (jsToString v) (resolveArgs e)).1,
          match (callTool env rem (jsToString v) (resolveArgs e)).2 with
          | .ok result => ⟨200, wrapResult e result⟩
          | .error err => ⟨500, errorBody err.message⟩)) := by
  rw [handler_call_eval env rem e hm]
  simp only [hn]
  constructor
  · intro hf
    simp [hf]
  · intro ht
    simp only [ht, if_true]
    rcases hc : callTool env rem (jsToString v) (resolveArgs e) with ⟨tr, res⟩
    cases res <;> rfl

/-- A call envelope whose name resolves to the empty string. -/
def c10Env : Envelope :=
  { jsonrpc := some "2.0", id := some (.num 9), method := some "tools/call",
    name := some (.str "") }

/-- Witness for C10: the empty-string name at a concrete envelope is
answered by the missing-name reply with an empty remote trace. -/
theorem c10_witness :
    handler env0 rem0 c10Env = ([], ⟨200, missingNamePayload c10Env⟩) :=
  (c10_falsy_name_short_circuit env0 rem0 c10Env (.str "") rfl rfl).1 rfl
